import Mathlib

/-!
# FlowCraft-Enhanced document pipeline: shallow embedding and verification

This file embeds, in Lean 4, the document-analysis pipeline of the
FlowCraft-Enhanced backend and proves properties of its classification,
extraction, OCR-fallback and status-lifecycle logic.

Sources embedded (paths relative to the repository root):
  * `src/backend/app/services/document_processor.py` (class `DocumentProcessor`)
  * `src/backend/app/services/ocr_service.py`        (class `OCRService`)
  * `src/backend/app/routers/documents.py`           (`upload_document`)
  * `src/backend/app/workers/document_processor.py`  (`process_document_task`)
  * `src/backend/app/models/document.py`             (`ProcessingStatus`)
  * `src/backend/app/models/processing_job.py`       (`JobStatus`)

Conventions of the embedding:
  * Python floats are modelled as `ℚ`; the numeric literals involved are
    exact decimal fractions, so no rounding behaviour is lost.
  * Calls into external libraries (Tesseract, EasyOCR, PyMuPDF, PIL, the
    database session) are modelled by explicit environment records whose
    fields hold the values those libraries would return; a Python exception
    raised by a library call is modelled as `Except.error` / an `Option`
    being `none`.
  * Python `str.lower` is modelled with `Char.toLower`; the keyword tables
    involved are ASCII, where the two agree.
-/

namespace FlowCraft

/-- Python `needle in hay` substring containment on character lists. -/
def strContains (hay needle : List Char) : Bool :=
  (List.range (hay.length + 1)).any fun i => needle.isPrefixOf (hay.drop i)

/-- Python `text.lower()` as a character list (`str.lower`, ASCII fragment). -/
def lowerChars (s : String) : List Char :=
  s.data.map Char.toLower

/-! ## Document classification (`DocumentProcessor.classify_document`) -/

/-- `self.document_keywords` table, `document_processor.py` lines 84-91. -/
def document_keywords : List (String × List String) :=
  [("invoice", ["invoice", "bill", "statement", "amount due", "payment"]),
   ("contract", ["contract", "agreement", "terms", "conditions", "parties"]),
   ("form", ["form", "application", "questionnaire", "survey"]),
   ("receipt", ["receipt", "purchase", "transaction", "paid"]),
   ("letter", ["dear", "sincerely", "regards", "correspondence"]),
   ("report", ["report", "analysis", "findings", "conclusion", "summary"])]

/-- One category's score: `sum(1 for keyword in keywords if keyword in text_lower)`
divided by `len(keywords)` (`classify_document`, lines 360-362). -/
def categoryScore (text_lower : List Char) (keywords : List String) : ℚ :=
  ((keywords.filter fun kw => strContains text_lower kw.data).length : ℚ)
    / (keywords.length : ℚ)

/-- The `scores` dict of `classify_document`, in insertion order. -/
def scoresList (text : String) : List (String × ℚ) :=
  document_keywords.map fun p => (p.1, categoryScore (lowerChars text) p.2)

/-- Python `max(scores, key=scores.get)` paired with its score: scan the
entries keeping the current best, replacing it only on strict improvement,
so the first key attaining the maximum wins. -/
def firstMax : (String × ℚ) → List (String × ℚ) → String × ℚ
  | x, [] => x
  | x, y :: ys => firstMax (if x.2 < y.2 then y else x) ys

/-- `DocumentProcessor.classify_document` (lines 355-373): keyword-overlap
scores, best match, and the `generic`/`0.5` default when the best score is
below `0.3`. -/
def classify_document (text : String) : String × ℚ :=
  let scores := scoresList text
  let best := firstMax (scores.headD ("generic", 0)) scores.tail
  if best.2 < 3/10 then ("generic", 1/2) else best

/-! ## OCR engines (`DocumentProcessor`)

External library calls are modelled by environment records: a field of type
`Except ε α` holds either the value the library returned or the exception it
raised. -/

/-- Python `str.strip()` (ASCII-whitespace fragment). -/
def pyStrip (s : List Char) : List Char :=
  ((s.dropWhile Char.isWhitespace).reverse.dropWhile Char.isWhitespace).reverse

/-- One tuple of `easyocr.Reader.readtext(..., detail=1, paragraph=True)`
output: the tuple arity `len(r)`, the text `str(r[1])` and the confidence
`float(r[2])`. -/
structure EasyTok where
  arity : Nat
  text : String
  conf : ℚ

/-- `DocumentProcessor._ocr_easyocr` (lines 169-205): returns `("", 0.0)` when
the reader is missing, `readtext` raises, or no usable tuple is present;
otherwise joins the texts with newlines and averages the confidences. -/
def ocr_easyocr (reader : Bool) (readtext : Except String (List EasyTok)) :
    String × ℚ :=
  if reader = false then ("", 0)
  else
    match readtext with
    | .error _ => ("", 0)
    | .ok result =>
      if result.isEmpty then ("", 0)
      else
        let valid := result.filter fun r => 3 ≤ r.arity
        let text_parts := valid.map (·.text)
        let confidences := valid.map (·.conf)
        if text_parts.isEmpty then ("", 0)
        else (String.intercalate "\n" text_parts,
              if confidences.isEmpty then 0
              else confidences.sum / (confidences.length : ℚ))

/-- Why `pytesseract.image_to_string` can fail inside `_ocr_tesseract`. -/
inductive TessFailure where
  | notFound
  | other (msg : String)
deriving DecidableEq

/-- Environment for one Tesseract invocation on an image: the
`image_to_string` outcome and the `image_to_data` `conf` column. -/
structure TessEnv where
  imageToString : Except TessFailure String
  imageToData : Except String (List ℚ)

/-- `DocumentProcessor._tesseract_confidence` (lines 139-147): average of the
`conf` column with the `-1` sentinel entries filtered out (the source
compares the raw entries against the string `'-1'`; the column is modelled
numerically and the filter as `≠ -1`).  The average is taken over the raw
Tesseract values, which lie on a 0-100 percent scale; no division by 100
happens here (contrast `OCRService.extract_text_from_image` below). -/
def tesseract_confidence (imageToData : Except String (List ℚ)) : ℚ :=
  match imageToData with
  | .error _ => 0
  | .ok data =>
    let confs := data.filter fun c => c ≠ -1
    if confs.isEmpty then 0 else confs.sum / (confs.length : ℚ)

/-- `DocumentProcessor._ocr_tesseract` (lines 123-137). -/
def ocr_tesseract (env : TessEnv) : String × ℚ :=
  match env.imageToString with
  | .error .notFound =>
    ("[Tesseract OCR not installed - please install Tesseract to extract text from images]",
     0)
  | .error (.other e) => ("[OCR Error: " ++ e ++ "]", 0)
  | .ok text => (text, tesseract_confidence env.imageToData)

/-- Environment for `_ocr_with_fallback` on one image file: whether
`self.easyocr_reader` is set, the EasyOCR raw output and the Tesseract
environment. -/
structure ImageOcrEnv where
  reader : Bool
  readtext : Except String (List EasyTok)
  tess : TessEnv

/-- `DocumentProcessor._ocr_with_fallback` (lines 328-353): EasyOCR first when
available, keeping its result only above the `0.5` confidence threshold,
otherwise Tesseract. -/
def ocr_with_fallback (env : ImageOcrEnv) : String × ℚ × String :=
  if env.reader then
    let easy := ocr_easyocr env.reader env.readtext
    if 1/2 < easy.2 then (easy.1, easy.2, "easyocr")
    else
      let t := ocr_tesseract env.tess
      (t.1, t.2, "tesseract")
  else
    let t := ocr_tesseract env.tess
    (t.1, t.2, "tesseract")

/-! ## PDF OCR (`DocumentProcessor._ocr_pdf`, lines 233-326) -/

/-- One PDF page as seen through PyMuPDF: the `page.get_text()` outcome and
the rasterise-and-OCR environment (`.error` models the pixmap/PIL part of the
fallback block raising before Tesseract runs). -/
structure PdfPage where
  direct : Except String String
  render : Except String TessEnv

/-- The dict returned by `DocumentProcessor.ocr`/`_ocr_pdf`; keys absent from
the image-file result are modelled as `none`. -/
structure OcrResult where
  text : String
  confidence : ℚ
  engine : String
  file_path : String
  pages : Option Nat := none
  total_pages : Option Nat := none
  error : Option String := none

/-- Contribution of one iteration of the `_ocr_pdf` page loop: the text
fragment appended, the confidence appended, and the value assigned to the
`engine` variable (if any). -/
structure PageOut where
  fragment : String
  conf : ℚ
  engineSet : Option String

def pageHeader (i : Nat) : String :=
  "\n--- Page " ++ toString (i + 1) ++ " ---\n"

/-- The OCR fallback half of the `_ocr_pdf` loop body (lines 267-294). -/
def pageFallback (i : Nat) (p : PdfPage) : PageOut :=
  match p.render with
  | .error e =>
    ⟨pageHeader i ++ "[Error processing page: " ++ e ++ "]", 0, none⟩
  | .ok tenv =>
    let r := ocr_tesseract tenv
    if r.1 ≠ "" ∧ ¬ ("[".data.isPrefixOf r.1.data) then
      ⟨pageHeader i ++ r.1, r.2, some "tesseract"⟩
    else
      ⟨pageHeader i ++ "[Page could not be processed]", 0, none⟩

/-- The `_ocr_pdf` loop body for zero-based page `i` (lines 250-294): direct
text-layer extraction first, the OCR fallback otherwise. -/
def pageStep (i : Nat) (p : PdfPage) : PageOut :=
  match p.direct with
  | .ok t =>
    if pyStrip t.data ≠ [] ∧ 50 < (pyStrip t.data).length then
      ⟨pageHeader i ++ t, 1, some "direct_extraction"⟩
    else pageFallback i p
  | .error _ => pageFallback i p

/-- Environment of one `_ocr_pdf` call: the pages of the opened document, or
the exception `fitz.open` raised. -/
structure PdfEnv where
  pdfPages : Except String (List PdfPage)

/-- The `.ok` branch of `_ocr_pdf`: the loop reads only `len(doc)` and the
first `min(len(doc), 10)` pages, so it is phrased over `pgs.take 10` and
`pgs.length`. -/
def ocr_pdf_body (file_path : String) (first10 : List PdfPage) (n : Nat) :
    OcrResult :=
  let max_pages := min n 10
  let outs := first10.enum.map fun ip => pageStep ip.1 ip.2
  let text := String.join (outs.map (·.fragment))
  let confs := outs.map (·.conf)
  let conf := if confs.isEmpty then 0 else confs.sum / (confs.length : ℚ)
  let engine := outs.foldl (fun e o => o.engineSet.getD e) "tesseract"
  if pyStrip text.data = [] then
    { text := "[No text could be extracted from this PDF]", confidence := 0,
      engine := engine, file_path := file_path, pages := some max_pages,
      total_pages := some n }
  else
    { text := text, confidence := conf, engine := engine,
      file_path := file_path, pages := some max_pages,
      total_pages := some n }

/-- `DocumentProcessor._ocr_pdf` (lines 233-326). -/
def ocr_pdf (file_path : String) (env : PdfEnv) : OcrResult :=
  match env.pdfPages with
  | .error e =>
    { text := "[PDF processing failed: " ++ e ++ "]", confidence := 0,
      engine := "error", file_path := file_path, pages := some 0,
      error := some e }
  | .ok pgs => ocr_pdf_body file_path (pgs.take 10) pgs.length

/-- Whether a page's direct text layer is usable per `_ocr_pdf` line 257:
stripped text nonempty and longer than 50 characters. -/
def directUsable (p : PdfPage) : Bool :=
  match p.direct with
  | .ok t => decide (pyStrip t.data ≠ [] ∧ 50 < (pyStrip t.data).length)
  | .error _ => false

/-! ## File-type dispatch (`_is_supported`, `ocr`) -/

/-- Index of the last occurrence of `c` in `l` (Python `str.rfind`). -/
def lastIdx (l : List Char) (c : Char) : Option Nat :=
  ((List.range l.length).filter fun i => l.get? i = some c).getLast?

/-- `os.path.splitext(path)[1]` under POSIX rules: the suffix from the last
dot, provided that dot lies after the last `/` and the basename does not
consist solely of dots up to it. -/
def splitextExt (l : List Char) : List Char :=
  let nameStart : Nat := match lastIdx l '/' with
    | none => 0
    | some s => s + 1
  match lastIdx l '.' with
  | none => []
  | some d =>
    if nameStart ≤ d ∧ ((l.drop nameStart).take (d - nameStart)).any (· ≠ '.')
    then l.drop d
    else []

/-- `settings.SUPPORTED_FORMATS_LIST` with the default
`SUPPORTED_FORMATS="pdf,png,jpg,jpeg,bmp,tiff"` (config.py lines 64,
110-112). -/
def SUPPORTED_FORMATS_LIST : List String :=
  ["pdf", "png", "jpg", "jpeg", "bmp", "tiff"]

/-- Python `s.lstrip('.')`. -/
def lstripDots (l : List Char) : List Char :=
  l.dropWhile (· = '.')

/-- `DocumentProcessor._is_supported` (lines 93-113). -/
def is_supported (file_path : String) : Bool :=
  let ext := (splitextExt file_path.data).map Char.toLower
  let supported := SUPPORTED_FORMATS_LIST.map fun fmt => lstripDots fmt.data
  let clean_ext := lstripDots ext
  supported.any fun fmt => fmt = clean_ext

/-- Environment for one `DocumentProcessor.ocr` call. -/
structure OcrCallEnv where
  file_path : String
  imageOpen : Except String Unit
  image : ImageOcrEnv
  pdf : PdfEnv

/-- `DocumentProcessor.ocr` (lines 212-231); `Except.error` is an exception
propagating to the caller (`raise ValueError(...)` on unsupported formats,
and `_load_image` re-raising the `Image.open` failure). -/
def DocumentProcessor.ocr (env : OcrCallEnv) : Except String OcrResult :=
  if is_supported env.file_path = false then .error "Unsupported file format"
  else if ".pdf".data.isSuffixOf (env.file_path.data.map Char.toLower) then
    .ok (ocr_pdf env.file_path env.pdf)
  else
    match env.imageOpen with
    | .error e => .error e
    | .ok _ =>
      let r := ocr_with_fallback env.image
      .ok { text := r.1, confidence := r.2.1, engine := r.2.2,
            file_path := env.file_path }

/-! ## `OCRService` (`src/backend/app/services/ocr_service.py`) -/

/-- Environment for `OCRService.extract_text_from_image`: the
`image_to_string` text and the `image_to_data` `conf` column as integers, or
the exception some step of the `try` block raised. -/
structure ImgExtractEnv where
  steps : Except String (String × List Int)

/-- `OCRService.extract_text_from_image` (lines 11-31): averages the strictly
positive confidences and divides by 100 ("Convert to 0-1 scale"), returning
the stripped text; any exception yields `("", 0.0)`. -/
def extract_text_from_image (env : ImgExtractEnv) : String × ℚ :=
  match env.steps with
  | .error _ => ("", 0)
  | .ok (text, confCol) =>
    let confidences := confCol.filter fun c => 0 < c
    let avg : ℚ :=
      if confidences.isEmpty then 0
      else (confidences.sum : ℚ) / (confidences.length : ℚ)
    (⟨pyStrip text.data⟩, avg / 100)

/-- One page of `OCRService.extract_text_from_pdf`: the direct `get_text()`
result and the environment of the per-page image-OCR fallback. -/
structure SvcPdfPage where
  direct : String
  img : ImgExtractEnv

/-- Environment of `OCRService.extract_text_from_pdf`; `.error` models an
exception anywhere in the `try` block (which uniformly yields `("", 0.0)`). -/
structure SvcPdfEnv where
  svcPages : Except String (List SvcPdfPage)

/-- `OCRService.extract_text_from_pdf` (lines 33-73). -/
def extract_text_from_pdf (env : SvcPdfEnv) : String × ℚ :=
  match env.svcPages with
  | .error _ => ("", 0)
  | .ok pgs =>
    let step := fun (p : SvcPdfPage) =>
      if pyStrip p.direct.data ≠ [] then (p.direct ++ "\n", (1 : ℚ))
      else
        let r := extract_text_from_image p.img
        (r.1 ++ "\n", r.2)
    let outs := pgs.map step
    let text := String.join (outs.map (·.1))
    let total := (outs.map (·.2)).sum
    let avg := if pgs.length = 0 then 0 else total / (pgs.length : ℚ)
    (⟨pyStrip text.data⟩, avg)

/-- Environment for one `OCRService.extract_text` call. -/
structure ExtractTextEnv where
  mime_type : String
  img : ImgExtractEnv
  pdf : SvcPdfEnv
  textFile : Except String String

/-- `OCRService.extract_text` (lines 75-90): dispatch on the MIME type. -/
def OCRService.extract_text (env : ExtractTextEnv) : String × ℚ :=
  if "image/".data.isPrefixOf env.mime_type.data then
    extract_text_from_image env.img
  else if env.mime_type = "application/pdf" then
    extract_text_from_pdf env.pdf
  else
    match env.textFile with
    | .ok t => (t, 1)
    | .error _ => ("", 0)

/-- A PDF page with a usable direct text layer (more than 50 stripped
characters), used to exercise the direct branch of `_ocr_pdf`. -/
def samplePageDirect : PdfPage :=
  ⟨.ok "This page has a direct text layer that is certainly longer than fifty characters.",
   .error "raster unavailable"⟩

/-- A PDF page whose direct text layer is too short, forcing the OCR
fallback. -/
def samplePageShort : PdfPage :=
  ⟨.ok "short", .ok ⟨.ok "ocr text", .ok []⟩⟩

/-! ## Field extraction (`extract_key_value_pairs`, lines 375-393)

`re.findall(pattern, text, re.IGNORECASE)` is an external library call and is
modelled by an oracle `findall : String → String → List String` mapping the
pattern source and the text to the list of matches.  The anchored `re.match`
format checks inside `_calculate_field_confidence` are small enough to embed
directly; `\d` is modelled as the ASCII digits and a trailing `$` accepts one
final newline, per Python `re` semantics. -/

/-- Python `re.match` with a pattern ending in `$`: the pattern must cover
the whole string, or the whole string minus one trailing newline. -/
def pyDollarAnchor (core : List Char → Bool) (l : List Char) : Bool :=
  core l ||
    match l.getLast? with
    | some c => c = '\n' && core l.dropLast
    | none => false

/-- The body of `^\$?[\d,]+\.?\d*$`: greedy matching is deterministic here
because `.` is not in the `[\d,]` class. -/
def amountCore (l : List Char) : Bool :=
  let l1 := match l with
    | '$' :: rest => rest
    | _ => l
  let digs := l1.takeWhile fun c => c.isDigit || c = ','
  let rest := l1.drop digs.length
  !digs.isEmpty &&
    match rest with
    | [] => true
    | '.' :: ds => ds.all Char.isDigit
    | _ => false

def dateSep (c : Char) : Bool := c = '/' || c = '-'

/-- The body of `^\d{1,2}[/\-]\d{1,2}[/\-]\d{2,4}$`: greedy matching is
deterministic because the separators are not digits. -/
def dateCore (l : List Char) : Bool :=
  let d1 := l.takeWhile Char.isDigit
  let r1 := l.drop d1.length
  (decide (1 ≤ d1.length) && decide (d1.length ≤ 2)) &&
    match r1 with
    | c :: r2 =>
      dateSep c &&
        (let d2 := r2.takeWhile Char.isDigit
         let r3 := r2.drop d2.length
         (decide (1 ≤ d2.length) && decide (d2.length ≤ 2)) &&
           match r3 with
           | c2 :: r4 =>
             dateSep c2 && r4.all Char.isDigit
               && decide (2 ≤ r4.length) && decide (r4.length ≤ 4)
           | [] => false)
    | [] => false

/-- `re.match(r'^\$?[\d,]+\.?\d*$', value)` succeeding. -/
def matchAmount (value : String) : Bool := pyDollarAnchor amountCore value.data

/-- `re.match(r'^\d{1,2}[/\-]\d{1,2}[/\-]\d{2,4}$', value)` succeeding. -/
def matchDate (value : String) : Bool := pyDollarAnchor dateCore value.data

/-- The email pattern of `self.field_patterns` (line 75). -/
def emailPattern : String := r"[a-zA-Z0-9._%+-]+@[a-zA-Z0-9.-]+\.[a-zA-Z]{2,}"

/-- `self.field_patterns` table (lines 58-81), patterns kept as their regex
source strings (the oracle interprets them). -/
def field_patterns : List (String × List String) :=
  [("invoice_number",
     [r"invoice\s*#?\s*([A-Z0-9\-]+)",
      r"inv\s*#?\s*([A-Z0-9\-]+)",
      r"bill\s*#?\s*([A-Z0-9\-]+)"]),
   ("date",
     [r"date\s*:?\s*(\d{1,2}[/\-]\d{1,2}[/\-]\d{2,4})",
      r"(\d{1,2}[/\-]\d{1,2}[/\-]\d{2,4})",
      r"(\d{4}-\d{2}-\d{2})"]),
   ("amount",
     [r"total\s*:?\s*\$?([\d,]+\.?\d*)",
      r"amount\s*:?\s*\$?([\d,]+\.?\d*)",
      r"\$([\d,]+\.?\d*)"]),
   ("email", [emailPattern]),
   ("phone",
     [r"(\d{3}[-.\s]?\d{3}[-.\s]?\d{4})",
      r"(\(\d{3}\)\s*\d{3}[-.\s]?\d{4})"])]

/-- One `extracted[field_name]` dict: the keys it is given in
`extract_key_value_pairs` line 386-390. -/
structure FieldData where
  value : String
  confidence : ℚ
  source : String
deriving DecidableEq

/-- `DocumentProcessor._calculate_field_confidence` (lines 399-412); `text`
and `pattern` are accepted but unused, as in the source. -/
def calculate_field_confidence (field_name : String) (text : String)
    (pattern : String) (value : String) : ℚ :=
  let base_confidence : ℚ := 7/10
  let base_confidence :=
    if field_name = "email" ∧ strContains value.data "@".data then
      base_confidence + 2/10
    else if field_name = "amount" ∧ matchAmount value then
      base_confidence + 15/100
    else if field_name = "date" ∧ matchDate value then
      base_confidence + 1/10
    else base_confidence
  min base_confidence 1

/-- The boost described by the claim: `+0.2` for an email value containing
`@`, `+0.15` for a well-formed amount, `+0.1` for a well-formed date. -/
def claimBoost (field_name : String) (value : String) : ℚ :=
  if field_name = "email" ∧ strContains value.data "@".data then 2/10
  else if field_name = "amount" ∧ matchAmount value then 15/100
  else if field_name = "date" ∧ matchDate value then 1/10
  else 0

/-- The inner pattern loop of `extract_key_value_pairs` with its `break`:
the first match of the first pattern with any match, paired with that
pattern. -/
def fieldFirst (findall : String → String → List String) (text : String) :
    List String → Option (String × String)
  | [] => none
  | p :: ps =>
    match findall p text with
    | [] => fieldFirst findall text ps
    | v :: _ => some (p, v)

/-- The dict entry built for one field (lines 384-390), if any. -/
def fieldEntry (findall : String → String → List String) (text : String)
    (fp : String × List String) : Option FieldData :=
  (fieldFirst findall text fp.2).map fun pv =>
    ⟨pv.2, calculate_field_confidence fp.1 text pv.1 pv.2, "regex"⟩

/-- `DocumentProcessor.extract_key_value_pairs` (lines 375-393), the
`extracted` dict in field order. -/
def extract_key_value_pairs (findall : String → String → List String)
    (text : String) : List (String × FieldData) :=
  field_patterns.filterMap fun fp =>
    (fieldEntry findall text fp).map fun d => (fp.1, d)

/-- An oracle returning one email match for the email pattern and nothing
otherwise. -/
def sampleFindall : String → String → List String :=
  fun p _ => if p = emailPattern then ["a@b.co"] else []

/-! ## Validation (`validate_extracted_data`, lines 630-693)

The Python `float()` builtin and the `f"${...:.2f}"` format are runtime
built-ins and are modelled by oracles `pyFloat` and `formatDollar`; the
anchored email regex of the email branch is embedded directly. -/

def emailLocalChar (c : Char) : Bool :=
  c.isAlphanum || c = '.' || c = '_' || c = '%' || c = '+' || c = '-'

def emailDomainChar (c : Char) : Bool :=
  c.isAlphanum || c = '.' || c = '-'

/-- The body of `^[a-zA-Z0-9._%+-]+@[a-zA-Z0-9.-]+\.[a-zA-Z]{2,}$`: the local
part ends at the first `@` (not in any class), and the domain split at the
separating literal dot is existential, matching backtracking. -/
def emailCore (l : List Char) : Bool :=
  let lpart := l.takeWhile fun c => c ≠ '@'
  match l.drop lpart.length with
  | '@' :: rest =>
    !lpart.isEmpty && lpart.all emailLocalChar &&
      ((List.range rest.length).any fun k =>
        (rest.get? k == some '.') &&
        (let d1 := rest.take k
         let d2 := rest.drop (k + 1)
         !d1.isEmpty && d1.all emailDomainChar &&
           d2.all Char.isAlpha && decide (2 ≤ d2.length)))
  | _ => false

/-- `re.match(r'^[a-zA-Z0-9._%+-]+@[a-zA-Z0-9.-]+\.[a-zA-Z]{2,}$', value)`
succeeding (line 640). -/
def matchEmail (value : String) : Bool := pyDollarAnchor emailCore value.data

/-- One entry of the dict returned by `validate_extracted_data`: the spread
`**field_data` plus the two added keys. -/
structure ValidatedField where
  value : String
  confidence : ℚ
  source : String
  is_valid : Bool
  formatted_value : String
deriving DecidableEq

/-- The per-field body of `validate_extracted_data` (lines 634-691).  The
`date` branch's `try` body cannot raise, so its `is_valid` is always true. -/
def validateField (pyFloat : String → Option ℚ) (formatDollar : ℚ → String)
    (field_name : String) (field_data : FieldData) : ValidatedField :=
  let value := field_data.value
  if field_name = "email" then
    if matchEmail value then
      ⟨value, field_data.confidence, field_data.source, true, ⟨lowerChars value⟩⟩
    else
      ⟨value, field_data.confidence, field_data.source, false, value⟩
  else if field_name = "amount" then
    let clean_amount := value.data.filter fun c => c.isDigit || c = '.' || c = ','
    match pyFloat ⟨clean_amount.filter fun c => c ≠ ','⟩ with
    | some x =>
      ⟨value, field_data.confidence, field_data.source, true, formatDollar x⟩
    | none =>
      ⟨value, field_data.confidence, field_data.source, false, value⟩
  else if field_name = "date" then
    ⟨value, field_data.confidence, field_data.source, true, value⟩
  else
    ⟨value, field_data.confidence, field_data.source, true, value⟩

/-- `DocumentProcessor.validate_extracted_data` (lines 630-693). -/
def validate_extracted_data (pyFloat : String → Option ℚ)
    (formatDollar : ℚ → String) (key_values : List (String × FieldData)) :
    List (String × ValidatedField) :=
  key_values.map fun kv => (kv.1, validateField pyFloat formatDollar kv.1 kv.2)

/-! ## Upload pipeline and background worker (C7, C8)

`upload_document` (`routers/documents.py` lines 20-165) is modelled from the
point where the document row exists (committed with status `uploaded`).
Database commits are modelled as infallible state updates, so the outer
`except` branch (lines 133-142), reachable only through commit failures, is
dead in the model; the OCR and AI blocks have their own `except` handlers in
the source and cannot propagate.  The function returns the final document row
(the fields the claims mention) together with the list of `processing_status`
values committed, in order.  The AI-analysis products (`ai_analysis`,
`key_value_pairs`, `entities`) are not referenced by any claim and are not
tracked. -/

/-- `ProcessingStatus` (`models/document.py` lines 9-15). -/
inductive ProcessingStatus where
  | uploaded
  | processing
  | ocr_complete
  | ai_processing
  | completed
  | failed
deriving DecidableEq

/-- The document-row fields the claims mention. -/
structure UploadDocState where
  extracted_text : Option String
  ocr_confidence : Option ℚ
  processing_status : ProcessingStatus
  error : Option String
  processed_at : Bool

/-- Environment of one upload: the outcome of `doc_processor.ocr_text`. -/
structure UploadEnv where
  ocrText : Except String String

/-- The OCR block of `upload_document` (lines 75-93): extracted text and the
stored OCR confidence (`0.95` mock on success, `0.0` otherwise). -/
def uploadOcrOutcome (ocrText : Except String String) : String × ℚ :=
  match ocrText with
  | .ok text =>
    if text ≠ "" ∧ 10 < (pyStrip text.data).length then (text, 19/20)
    else
      ("[Document uploaded successfully but text extraction failed. This may be an image-based document that requires manual review.]",
       0)
  | .error e =>
    ("[Document uploaded successfully. OCR processing failed: " ++ e ++ "]", 0)

/-- `upload_document` processing pipeline (lines 52-131): final row state and
the committed status trace. -/
def upload_process (env : UploadEnv) : UploadDocState × List ProcessingStatus :=
  let ocrOut := uploadOcrOutcome env.ocrText
  ({ extracted_text := some ocrOut.1, ocr_confidence := some ocrOut.2,
     processing_status := ProcessingStatus.completed, error := none,
     processed_at := true },
   [ProcessingStatus.uploaded, ProcessingStatus.processing,
    ProcessingStatus.ocr_complete, ProcessingStatus.ai_processing,
    ProcessingStatus.completed])

/-- `JobStatus` (`models/processing_job.py` lines 10-14). -/
inductive JobStatus where
  | queued
  | processing
  | completed
  | failed
deriving DecidableEq

/-- The processing-job fields `process_document_task` mutates. -/
structure JobState where
  status : JobStatus
  error_message : Option String
  processing_time_set : Bool
  completed_at : Bool

/-- Environment of one `process_document_task` run
(`workers/document_processor.py` lines 16-102): whether the job, document and
model rows exist, and the outcome of the `AIService.process_document` call
(an exception, or a result dict modelled by its `success` flag and optional
`error` entry).  The document-row OCR side effect (lines 44-50) does not
touch the job and is not tracked. -/
structure WorkerEnv where
  jobFound : Bool
  docFound : Bool
  modelFound : Bool
  aiCall : Except String (Bool × Option String)

/-- `process_document_task` (lines 16-102): final job state and committed
job-status trace; `none` when the job row is missing (early return).  The
`except` handler (lines 86-99) records the failure and does not re-raise. -/
def process_document_task (env : WorkerEnv) :
    Option (JobState × List JobStatus) :=
  if env.jobFound = false then none
  else
    if env.docFound = false ∨ env.modelFound = false then
      some ({ status := JobStatus.failed,
              error_message := some "Document or AI model not found",
              processing_time_set := false, completed_at := false },
            [JobStatus.processing, JobStatus.failed])
    else
      match env.aiCall with
      | .ok (success, errField) =>
        if success then
          some ({ status := JobStatus.completed, error_message := none,
                  processing_time_set := true, completed_at := true },
                [JobStatus.processing, JobStatus.completed])
        else
          some ({ status := JobStatus.failed,
                  error_message := some (errField.getD "Unknown error"),
                  processing_time_set := true, completed_at := false },
                [JobStatus.processing, JobStatus.failed])
      | .error e =>
        some ({ status := JobStatus.failed, error_message := some e,
                processing_time_set := true, completed_at := false },
              [JobStatus.processing, JobStatus.failed])

/-! ## Theorems -/

theorem firstMax_mem (xs : List (String × ℚ)) :
    ∀ x, firstMax x xs ∈ x :: xs := by
  induction xs with
  | nil => intro x; simp [firstMax]
  | cons y ys ih =>
    intro x
    rw [firstMax]
    by_cases hxy : x.2 < y.2
    · rw [if_pos hxy]
      rcases List.mem_cons.mp (ih y) with h | h
      · rw [h]; exact List.mem_cons_of_mem _ (List.mem_cons_self _ _)
      · exact List.mem_cons_of_mem _ (List.mem_cons_of_mem _ h)
    · rw [if_neg hxy]
      rcases List.mem_cons.mp (ih x) with h | h
      · rw [h]; exact List.mem_cons_self _ _
      · exact List.mem_cons_of_mem _ (List.mem_cons_of_mem _ h)

theorem firstMax_ge (xs : List (String × ℚ)) :
    ∀ x, ∀ p ∈ x :: xs, p.2 ≤ (firstMax x xs).2 := by
  induction xs with
  | nil =>
    intro x p hp
    rcases List.mem_singleton.mp hp with rfl
    exact le_refl _
  | cons y ys ih =>
    intro x p hp
    rw [firstMax]
    have hx : x.2 ≤ (if x.2 < y.2 then y else x).2 := by
      by_cases hxy : x.2 < y.2
      · rw [if_pos hxy]; exact le_of_lt hxy
      · rw [if_neg hxy]
    have hy : y.2 ≤ (if x.2 < y.2 then y else x).2 := by
      by_cases hxy : x.2 < y.2
      · rw [if_pos hxy]
      · rw [if_neg hxy]; exact le_of_not_lt hxy
    have hbest := ih (if x.2 < y.2 then y else x)
    rcases List.mem_cons.mp hp with rfl | hp
    · exact le_trans hx (hbest _ (List.mem_cons_self _ _))
    · rcases List.mem_cons.mp hp with rfl | hp
      · exact le_trans hy (hbest _ (List.mem_cons_self _ _))
      · exact hbest p (List.mem_cons_of_mem _ hp)

theorem scoresList_cons (text : String) :
    scoresList text
      = (scoresList text).headD ("generic", 0) :: (scoresList text).tail := rfl

theorem classify_document_eq (text : String) :
    classify_document text
      = if (firstMax ((scoresList text).headD ("generic", 0)) (scoresList text).tail).2
            < 3/10
        then ("generic", 1/2)
        else firstMax ((scoresList text).headD ("generic", 0)) (scoresList text).tail :=
  rfl

theorem bestPair_mem (text : String) :
    firstMax ((scoresList text).headD ("generic", 0)) (scoresList text).tail
      ∈ scoresList text := by
  rw [scoresList_cons text]
  exact firstMax_mem _ _

theorem bestPair_ge (text : String) :
    ∀ p ∈ scoresList text,
      p.2 ≤ (firstMax ((scoresList text).headD ("generic", 0)) (scoresList text).tail).2 := by
  intro p hp
  apply firstMax_ge
  rw [← scoresList_cons text]
  exact hp

/-- On the empty text every keyword score is `0`, hence below `0.3`. -/
theorem scoresList_empty_lt : ∀ p ∈ scoresList "", p.2 < 3/10 := by
  have h : ∀ q ∈ document_keywords,
      (q.2.filter fun kw => strContains (lowerChars "") kw.data).length = 0 := by decide
  intro p hp
  simp only [scoresList, List.mem_map] at hp
  obtain ⟨q, hq, rfl⟩ := hp
  simp only [categoryScore, h q hq]
  norm_num

/-- On `"form survey"` the `form` category scores `2/4`, at least `0.3`. -/
theorem scoresList_form_survey_ge :
    ∃ p ∈ scoresList "form survey", 3/10 ≤ p.2 := by
  refine ⟨("form",
    categoryScore (lowerChars "form survey")
      ["form", "application", "questionnaire", "survey"]), ?_, ?_⟩
  · simp only [scoresList, List.mem_map]
    exact ⟨("form", ["form", "application", "questionnaire", "survey"]), by decide, rfl⟩
  · have h : ((["form", "application", "questionnaire", "survey"] :
        List String).filter fun kw =>
          strContains (lowerChars "form survey") kw.data).length = 2 := by decide
    simp only [categoryScore, h]
    norm_num

/-- C3: `classify_document` scores every category as (matched keyword count /
keyword-list size) over the lowercased text and returns the category attaining
the highest score; when every score is below `0.3` (i.e. the best score is),
it returns `"generic"` instead. -/
theorem C3_classify_document_spec (text : String) :
    ((∀ p ∈ scoresList text, p.2 < 3/10) →
      classify_document text = ("generic", 1/2)) ∧
    ((∃ p ∈ scoresList text, 3/10 ≤ p.2) →
      classify_document text ∈ scoresList text ∧
      ∀ p ∈ scoresList text, p.2 ≤ (classify_document text).2) := by
  constructor
  · intro hall
    rw [classify_document_eq, if_pos (hall _ (bestPair_mem text))]
  · rintro ⟨p, hp, h3⟩
    have hnot : ¬ (firstMax ((scoresList text).headD ("generic", 0))
        (scoresList text).tail).2 < 3/10 :=
      not_lt.mpr (le_trans h3 (bestPair_ge text p hp))
    rw [classify_document_eq, if_neg hnot]
    exact ⟨bestPair_mem text, bestPair_ge text⟩

/-- Witness for C3: the empty text classifies as `("generic", 0.5)`, and on
`"form survey"` the returned pair is one of the scored categories. -/
theorem C3_classify_document_spec_witness :
    classify_document "" = ("generic", 1/2) ∧
    classify_document "form survey" ∈ scoresList "form survey" :=
  ⟨(C3_classify_document_spec "").1 scoresList_empty_lt,
   ((C3_classify_document_spec "form survey").2 scoresList_form_survey_ge).1⟩

/-- C9: the confidence returned by `classify_document` is always at least
`0.3`; when every keyword score is below `0.3` (the `"generic"` default
branch) the returned confidence is the constant `0.5`, strictly above every
computed score. -/
theorem C9_classify_confidence_bound (text : String) :
    3/10 ≤ (classify_document text).2 ∧
    ((∀ p ∈ scoresList text, p.2 < 3/10) →
      (classify_document text).2 = 1/2 ∧
      ∀ p ∈ scoresList text, p.2 < 1/2) := by
  constructor
  · rw [classify_document_eq]
    by_cases hlt : (firstMax ((scoresList text).headD ("generic", 0))
        (scoresList text).tail).2 < 3/10
    · rw [if_pos hlt]; norm_num
    · rw [if_neg hlt]; exact le_of_not_lt hlt
  · intro hall
    rw [classify_document_eq, if_pos (hall _ (bestPair_mem text))]
    refine ⟨rfl, fun p hp => lt_trans (hall p hp) (by norm_num)⟩

/-- Witness for C9: on the empty text the confidence is `0.5` and every
computed score is below it. -/
theorem C9_classify_confidence_bound_witness :
    (classify_document "").2 = 1/2 ∧ ∀ p ∈ scoresList "", p.2 < 1/2 :=
  (C9_classify_confidence_bound "").2 scoresList_empty_lt

/-- C1 fails as stated: `DocumentProcessor.ocr` raises
`ValueError("Unsupported file format")` on a file path whose extension is not
in the supported-formats list, rather than returning a placeholder result. -/
theorem C1_counterexample :
    DocumentProcessor.ocr
        ⟨"notes.txt", .ok (), ⟨false, .ok [], ⟨.ok "", .ok []⟩⟩, ⟨.ok []⟩⟩
      = .error "Unsupported file format" := by
  rfl

/-- C1 amended: `DocumentProcessor.ocr` returns a result (rather than
raising) whenever the file format is supported and — for image files — the
image loads; `OCRService.extract_text` never raises, returning `("", 0.0)`
when the branch taken fails internally. -/
theorem C1_ocr_failure_policy :
    (∀ env : OcrCallEnv,
      is_supported env.file_path = true →
      (".pdf".data.isSuffixOf (env.file_path.data.map Char.toLower) = true
        ∨ env.imageOpen = .ok ()) →
      ∃ r, DocumentProcessor.ocr env = .ok r) ∧
    (∀ env : ExtractTextEnv,
      (∀ e, env.img.steps = .error e →
        extract_text_from_image env.img = ("", 0)) ∧
      (∀ e, env.pdf.svcPages = .error e →
        extract_text_from_pdf env.pdf = ("", 0)) ∧
      (∀ e, env.textFile = .error e →
        "image/".data.isPrefixOf env.mime_type.data = false →
        env.mime_type ≠ "application/pdf" →
        OCRService.extract_text env = ("", 0))) := by
  constructor
  · intro env hsup hok
    unfold DocumentProcessor.ocr
    rw [hsup]
    simp only [Bool.true_eq_false, if_false]
    rcases hok with hpdf | himg
    · rw [if_pos hpdf]
      exact ⟨_, rfl⟩
    · by_cases hpdf : ".pdf".data.isSuffixOf (env.file_path.data.map Char.toLower) = true
      · rw [if_pos hpdf]
        exact ⟨_, rfl⟩
      · rw [if_neg hpdf, himg]
        exact ⟨_, rfl⟩
  · intro env
    refine ⟨?_, ?_, ?_⟩
    · intro e he
      unfold extract_text_from_image
      rw [he]
    · intro e he
      unfold extract_text_from_pdf
      rw [he]
    · intro e he himg hpdf
      unfold OCRService.extract_text
      rw [himg, he]
      simp only [Bool.false_eq_true, if_false, if_neg hpdf]

/-- Witness for amended C1: a supported PDF path yields a result, and an
image-extraction environment whose library calls raise yields `("", 0.0)`. -/
theorem C1_ocr_failure_policy_witness :
    (∃ r, DocumentProcessor.ocr
        ⟨"scan.pdf", .ok (), ⟨false, .ok [], ⟨.ok "", .ok []⟩⟩, ⟨.ok []⟩⟩
      = .ok r) ∧
    extract_text_from_image ⟨.error "boom"⟩ = ("", 0) :=
  ⟨(C1_ocr_failure_policy.1
      ⟨"scan.pdf", .ok (), ⟨false, .ok [], ⟨.ok "", .ok []⟩⟩, ⟨.ok []⟩⟩
      (by rfl) (Or.inl (by rfl))),
   ((C1_ocr_failure_policy.2
      ⟨"image/png", ⟨.error "boom"⟩, ⟨.ok []⟩, .ok ""⟩).1 "boom" rfl)⟩

/-- C6: `_ocr_pdf` processes at most the first 10 pages — the reported
`pages` count is `min(total, 10)` and the whole result depends only on the
first 10 pages and the page count — and each processed page tries direct
text-layer extraction first, running the rasterise-and-OCR fallback exactly
when the direct layer is unusable. -/
theorem C6_ocr_pdf_spec (path : String) (env : PdfEnv) (pgs : List PdfPage)
    (h : env.pdfPages = .ok pgs) :
    (ocr_pdf path env).pages = some (min pgs.length 10) ∧
    (ocr_pdf path env).total_pages = some pgs.length ∧
    (∀ pgs' : List PdfPage, pgs.take 10 = pgs'.take 10 →
        pgs.length = pgs'.length →
        ocr_pdf path ⟨.ok pgs'⟩ = ocr_pdf path env) ∧
    (∀ i (p : PdfPage),
      (directUsable p = true →
        ∃ t, p.direct = .ok t ∧
          pageStep i p = ⟨pageHeader i ++ t, 1, some "direct_extraction"⟩) ∧
      (directUsable p = false → pageStep i p = pageFallback i p)) := by
  obtain ⟨pf⟩ := env
  simp only at h
  subst h
  refine ⟨?_, ?_, ?_, ?_⟩
  · show (ocr_pdf_body path (pgs.take 10) pgs.length).pages
      = some (min pgs.length 10)
    simp only [ocr_pdf_body]
    split <;> rfl
  · show (ocr_pdf_body path (pgs.take 10) pgs.length).total_pages
      = some pgs.length
    simp only [ocr_pdf_body]
    split <;> rfl
  · intro pgs' h10 hlen
    show ocr_pdf_body path (pgs'.take 10) pgs'.length
      = ocr_pdf_body path (pgs.take 10) pgs.length
    rw [← h10, ← hlen]
  · intro i p
    obtain ⟨pd, pr⟩ := p
    constructor
    · intro hu
      cases pd with
      | error e => exact absurd hu (by simp [directUsable])
      | ok t =>
        have hu' : decide (pyStrip t.data ≠ [] ∧ 50 < (pyStrip t.data).length)
            = true := hu
        have hcond := of_decide_eq_true hu'
        refine ⟨t, rfl, ?_⟩
        show (if pyStrip t.data ≠ [] ∧ 50 < (pyStrip t.data).length then
            (⟨pageHeader i ++ t, 1, some "direct_extraction"⟩ : PageOut)
          else pageFallback i ⟨.ok t, pr⟩)
          = ⟨pageHeader i ++ t, 1, some "direct_extraction"⟩
        exact if_pos hcond
    · intro hu
      cases pd with
      | error e => rfl
      | ok t =>
        have hu' : decide (pyStrip t.data ≠ [] ∧ 50 < (pyStrip t.data).length)
            = false := hu
        have hcond := of_decide_eq_false hu'
        show (if pyStrip t.data ≠ [] ∧ 50 < (pyStrip t.data).length then
            (⟨pageHeader i ++ t, 1, some "direct_extraction"⟩ : PageOut)
          else pageFallback i ⟨.ok t, pr⟩)
          = pageFallback i ⟨.ok t, pr⟩
        exact if_neg hcond

/-- Witness for C6: a two-page document reports `pages = 2`; its first page
(usable direct layer) takes the direct branch and its second (short direct
text) takes the OCR fallback. -/
theorem C6_ocr_pdf_spec_witness :
    (ocr_pdf "scan.pdf" ⟨.ok [samplePageDirect, samplePageShort]⟩).pages
        = some 2 ∧
    (∃ t, samplePageDirect.direct = .ok t ∧
      pageStep 0 samplePageDirect
        = ⟨pageHeader 0 ++ t, 1, some "direct_extraction"⟩) ∧
    pageStep 1 samplePageShort = pageFallback 1 samplePageShort := by
  have hc := C6_ocr_pdf_spec "scan.pdf" ⟨.ok [samplePageDirect, samplePageShort]⟩
    [samplePageDirect, samplePageShort] rfl
  exact ⟨hc.1, (hc.2.2.2 0 samplePageDirect).1 (by rfl),
         (hc.2.2.2 1 samplePageShort).2 (by rfl)⟩

/-- C2: the claim that every confidence produced by the extraction pipeline
lies in [0,1] fails for `DocumentProcessor._tesseract_confidence`: it averages
raw Tesseract `conf` values, which are percentages on a 0-100 scale, without
dividing by 100 — on a `conf` column of `[90, 95]` it returns `92.5`. -/
theorem C2_tesseract_confidence_percent_scale :
    tesseract_confidence (.ok [90, 95]) = 185/2 ∧
    1 < tesseract_confidence (.ok [90, 95]) := by
  have h : tesseract_confidence (.ok [90, 95]) = 185/2 := by
    norm_num [tesseract_confidence, List.filter, List.isEmpty, List.sum]
  exact ⟨h, by rw [h]; norm_num⟩

/-- C5: when the EasyOCR reader is available it is attempted first and its
result (engine `"easyocr"`) is returned exactly when its average per-token
confidence exceeds `0.5`; otherwise — below the threshold or reader
unavailable — the Tesseract result (engine `"tesseract"`) is returned. -/
theorem C5_ocr_with_fallback_spec (env : ImageOcrEnv) :
    (env.reader = true →
      ((1/2 < (ocr_easyocr true env.readtext).2 ↔
          ocr_with_fallback env
            = ((ocr_easyocr true env.readtext).1,
               (ocr_easyocr true env.readtext).2, "easyocr")) ∧
       (¬ 1/2 < (ocr_easyocr true env.readtext).2 →
          ocr_with_fallback env
            = ((ocr_tesseract env.tess).1, (ocr_tesseract env.tess).2,
               "tesseract")))) ∧
    (env.reader = false →
      ocr_with_fallback env
        = ((ocr_tesseract env.tess).1, (ocr_tesseract env.tess).2,
           "tesseract")) := by
  constructor
  · intro hr
    constructor
    · constructor
      · intro hconf
        simp only [ocr_with_fallback, hr, if_true]
        rw [if_pos hconf]
      · intro heq
        by_contra hconf
        simp only [ocr_with_fallback, hr, if_true] at heq
        rw [if_neg hconf] at heq
        have := congrArg (fun t => t.2.2) heq
        simp at this
    · intro hconf
      simp only [ocr_with_fallback, hr, if_true]
      rw [if_neg hconf]
  · intro hr
    simp only [ocr_with_fallback, hr, Bool.false_eq_true, if_false]

/-- Witness for C5: with the reader available and one high-confidence token
the EasyOCR result is kept; with the reader unavailable Tesseract is used. -/
theorem C5_ocr_with_fallback_spec_witness :
    (ocr_with_fallback
        ⟨true, .ok [⟨3, "hello", 9/10⟩], ⟨.ok "x", .ok []⟩⟩
      = ((ocr_easyocr true (.ok [⟨3, "hello", 9/10⟩])).1,
         (ocr_easyocr true (.ok [⟨3, "hello", 9/10⟩])).2, "easyocr")) ∧
    (ocr_with_fallback ⟨false, .ok [], ⟨.ok "x", .ok []⟩⟩
      = ((ocr_tesseract ⟨.ok "x", .ok []⟩).1,
         (ocr_tesseract ⟨.ok "x", .ok []⟩).2, "tesseract")) :=
  ⟨((C5_ocr_with_fallback_spec
      ⟨true, .ok [⟨3, "hello", 9/10⟩], ⟨.ok "x", .ok []⟩⟩).1 rfl).1.mp
      (by norm_num [ocr_easyocr, List.filter, List.isEmpty]),
   (C5_ocr_with_fallback_spec ⟨false, .ok [], ⟨.ok "x", .ok []⟩⟩).2 rfl⟩

theorem lookup_keyed_filterMap_none
    (F : (String × List String) → Option FieldData) :
    ∀ (fps : List (String × List String)) (field : String),
      field ∉ fps.map Prod.fst →
      (fps.filterMap fun fp => (F fp).map fun d => (fp.1, d)).lookup field
        = none := by
  intro fps
  induction fps with
  | nil => intro field _; rfl
  | cons hd tl ih =>
    intro field h
    simp only [List.map_cons, List.mem_cons, not_or] at h
    obtain ⟨h1, h2⟩ := h
    simp only [List.filterMap_cons]
    cases hF : F hd with
    | none => exact ih field h2
    | some d =>
      have hbeq : (field == hd.1) = false := beq_false_of_ne h1
      simp only [Option.map_some', List.lookup, hbeq]
      exact ih field h2

theorem lookup_keyed_filterMap
    (F : (String × List String) → Option FieldData) :
    ∀ (fps : List (String × List String)) (field : String)
      (patterns : List String),
      (fps.map Prod.fst).Nodup → (field, patterns) ∈ fps →
      (fps.filterMap fun fp => (F fp).map fun d => (fp.1, d)).lookup field
        = F (field, patterns) := by
  intro fps
  induction fps with
  | nil => intro field patterns _ h; cases h
  | cons hd tl ih =>
    intro field patterns hnd hmem
    simp only [List.map_cons, List.nodup_cons] at hnd
    obtain ⟨hnotin, hnd'⟩ := hnd
    rcases List.mem_cons.mp hmem with heq | hmem'
    · subst heq
      simp only [List.filterMap_cons]
      cases hF : F (field, patterns) with
      | none => exact lookup_keyed_filterMap_none F tl field hnotin
      | some d =>
        have hbeq : (field == field) = true := beq_self_eq_true field
        simp only [Option.map_some', List.lookup, hbeq]
    · have hfield_in : field ∈ tl.map Prod.fst :=
        List.mem_map.mpr ⟨(field, patterns), hmem', rfl⟩
      have hne : field ≠ hd.1 := fun h => hnotin (h ▸ hfield_in)
      simp only [List.filterMap_cons]
      cases hF : F hd with
      | none => exact ih field patterns hnd' hmem'
      | some d =>
        have hbeq : (field == hd.1) = false := beq_false_of_ne hne
        simp only [Option.map_some', List.lookup, hbeq]
        exact ih field patterns hnd' hmem'

theorem fieldFirst_none (findall : String → String → List String)
    (text : String) :
    ∀ ps : List String, (∀ p ∈ ps, findall p text = []) →
      fieldFirst findall text ps = none := by
  intro ps
  induction ps with
  | nil => intro _; rfl
  | cons q qs ih =>
    intro h
    have hq := h q (List.mem_cons_self _ _)
    simp only [fieldFirst, hq]
    exact ih fun p hp => h p (List.mem_cons_of_mem _ hp)

theorem fieldFirst_first (findall : String → String → List String)
    (text : String) :
    ∀ (ps₁ : List String) (p : String) (ps₂ : List String) (v : String)
      (vs : List String),
      (∀ q ∈ ps₁, findall q text = []) → findall p text = v :: vs →
      fieldFirst findall text (ps₁ ++ p :: ps₂) = some (p, v) := by
  intro ps₁
  induction ps₁ with
  | nil =>
    intro p ps₂ v vs _ hp
    simp only [List.nil_append, fieldFirst, hp]
  | cons q qs ih =>
    intro p ps₂ v vs hall hp
    have hq := hall q (List.mem_cons_self _ _)
    simp only [List.cons_append, fieldFirst, hq]
    exact ih p ps₂ v vs (fun r hr => hall r (List.mem_cons_of_mem _ hr)) hp

/-- C4: for each field, `extract_key_value_pairs` tries the field's patterns
in listed order and records the first match of the first matching pattern
(no entry when no pattern matches), and the recorded confidence is `0.7`
plus the claim's format-check boost, capped at `1.0`. -/
theorem C4_extract_key_value_pairs_spec
    (findall : String → String → List String) (text : String) :
    (∀ fp ∈ field_patterns, (∀ p ∈ fp.2, findall p text = []) →
      (extract_key_value_pairs findall text).lookup fp.1 = none) ∧
    (∀ fp ∈ field_patterns, ∀ ps₁ p ps₂, fp.2 = ps₁ ++ p :: ps₂ →
      (∀ q ∈ ps₁, findall q text = []) →
      ∀ v vs, findall p text = v :: vs →
      (extract_key_value_pairs findall text).lookup fp.1
        = some ⟨v, min (7/10 + claimBoost fp.1 v) 1, "regex"⟩) ∧
    (∀ f t pat v, calculate_field_confidence f t pat v
        = min (7/10 + claimBoost f v) 1) := by
  have hnd : (field_patterns.map Prod.fst).Nodup := by decide
  have hconf : ∀ f t pat v, calculate_field_confidence f t pat v
      = min (7/10 + claimBoost f v) 1 := by
    intro f t pat v
    unfold calculate_field_confidence claimBoost
    split_ifs <;> norm_num
  refine ⟨?_, ?_, hconf⟩
  · intro fp hfp hall
    obtain ⟨f, ps⟩ := fp
    unfold extract_key_value_pairs
    rw [lookup_keyed_filterMap (fieldEntry findall text) field_patterns f ps
      hnd hfp]
    unfold fieldEntry
    rw [fieldFirst_none findall text ps hall]
    rfl
  · intro fp hfp ps₁ p ps₂ hsplit hall v vs hp
    obtain ⟨f, ps⟩ := fp
    simp only at hsplit
    subst hsplit
    unfold extract_key_value_pairs
    rw [lookup_keyed_filterMap (fieldEntry findall text) field_patterns f _
      hnd hfp]
    unfold fieldEntry
    rw [fieldFirst_first findall text ps₁ p ps₂ v vs hall hp]
    simp only [Option.map_some']
    rw [hconf]

/-- Witness for C4: with `sampleFindall`, the `email` field records the first
match with the boosted confidence, and `phone` gets no entry. -/
theorem C4_extract_key_value_pairs_spec_witness :
    (extract_key_value_pairs sampleFindall "mail a@b.co").lookup "email"
        = some ⟨"a@b.co", min (7/10 + claimBoost "email" "a@b.co") 1,
                "regex"⟩ ∧
    (extract_key_value_pairs sampleFindall "mail a@b.co").lookup "phone"
        = none := by
  constructor
  · exact (C4_extract_key_value_pairs_spec sampleFindall "mail a@b.co").2.1
      ("email", [emailPattern]) (by decide) [] emailPattern [] rfl
      (fun q hq => absurd hq (List.not_mem_nil q)) "a@b.co" [] (by rfl)
  · exact (C4_extract_key_value_pairs_spec sampleFindall "mail a@b.co").1
      ("phone",
       [r"(\d{3}[-.\s]?\d{3}[-.\s]?\d{4})",
        r"(\(\d{3}\)\s*\d{3}[-.\s]?\d{4})"]) (by decide) (by decide)

theorem validateField_preserves (pyFloat : String → Option ℚ)
    (formatDollar : ℚ → String) (f : String) (d : FieldData) :
    (validateField pyFloat formatDollar f d).value = d.value ∧
    (validateField pyFloat formatDollar f d).confidence = d.confidence ∧
    (validateField pyFloat formatDollar f d).source = d.source := by
  simp only [validateField]
  split_ifs <;>
    first
      | exact ⟨rfl, rfl, rfl⟩
      | (cases pyFloat ⟨(d.value.data.filter fun c =>
            c.isDigit || c = '.' || c = ',').filter fun c => c ≠ ','⟩ <;>
          exact ⟨rfl, rfl, rfl⟩)

/-- C10: `validate_extracted_data` keeps exactly the input's field names in
order, preserves each field's `value`, `confidence` and `source`, and only
adds `is_valid` and `formatted_value` (the two extra fields of
`ValidatedField`). -/
theorem C10_validate_extracted_data_frame (pyFloat : String → Option ℚ)
    (formatDollar : ℚ → String) (key_values : List (String × FieldData)) :
    ((validate_extracted_data pyFloat formatDollar key_values).map Prod.fst
        = key_values.map Prod.fst) ∧
    (∀ i : Nat,
      ((validate_extracted_data pyFloat formatDollar key_values).get? i).map
          (fun kv => (kv.1, kv.2.value, kv.2.confidence, kv.2.source))
        = (key_values.get? i).map
          (fun kv => (kv.1, kv.2.value, kv.2.confidence, kv.2.source))) := by
  constructor
  · simp [validate_extracted_data, List.map_map, Function.comp]
  · intro i
    simp only [validate_extracted_data, List.get?_map]
    cases key_values.get? i with
    | none => rfl
    | some kv =>
      obtain ⟨hv, hc, hs⟩ :=
        validateField_preserves pyFloat formatDollar kv.1 kv.2
      simp [hv, hc, hs]

/-- C7: when the OCR step raises or yields no usable text (at most 10
stripped characters), the upload pipeline still ends with
`processing_status = completed`, storing the placeholder text and zero OCR
confidence. -/
theorem C7_upload_ocr_failure_completed (env : UploadEnv) :
    (∀ e, env.ocrText = .error e →
      (upload_process env).1.processing_status = ProcessingStatus.completed ∧
      (upload_process env).1.ocr_confidence = some 0 ∧
      (upload_process env).1.extracted_text
        = some ("[Document uploaded successfully. OCR processing failed: "
                  ++ e ++ "]")) ∧
    (∀ text, env.ocrText = .ok text →
      ¬ (text ≠ "" ∧ 10 < (pyStrip text.data).length) →
      (upload_process env).1.processing_status = ProcessingStatus.completed ∧
      (upload_process env).1.ocr_confidence = some 0 ∧
      (upload_process env).1.extracted_text
        = some "[Document uploaded successfully but text extraction failed. This may be an image-based document that requires manual review.]") := by
  obtain ⟨oc⟩ := env
  constructor
  · intro e he
    simp only at he
    subst he
    exact ⟨rfl, rfl, rfl⟩
  · intro text ht hshort
    simp only at ht
    subst ht
    have hocr : uploadOcrOutcome (.ok text)
        = ("[Document uploaded successfully but text extraction failed. This may be an image-based document that requires manual review.]",
           0) := by
      simp only [uploadOcrOutcome, if_neg hshort]
    refine ⟨rfl, ?_, ?_⟩
    · show some (uploadOcrOutcome (.ok text)).2 = some 0
      rw [hocr]
    · show some (uploadOcrOutcome (.ok text)).1 = some _
      rw [hocr]

/-- Witness for C7: an OCR exception and a too-short OCR result both end in
`completed` with zero confidence and placeholder text. -/
theorem C7_upload_ocr_failure_completed_witness :
    ((upload_process ⟨.error "disk error"⟩).1.processing_status
        = ProcessingStatus.completed ∧
     (upload_process ⟨.error "disk error"⟩).1.ocr_confidence = some 0 ∧
     (upload_process ⟨.error "disk error"⟩).1.extracted_text
        = some ("[Document uploaded successfully. OCR processing failed: "
                  ++ "disk error" ++ "]")) ∧
    ((upload_process ⟨.ok "tiny"⟩).1.processing_status
        = ProcessingStatus.completed ∧
     (upload_process ⟨.ok "tiny"⟩).1.ocr_confidence = some 0 ∧
     (upload_process ⟨.ok "tiny"⟩).1.extracted_text
        = some "[Document uploaded successfully but text extraction failed. This may be an image-based document that requires manual review.]") :=
  ⟨(C7_upload_ocr_failure_completed ⟨.error "disk error"⟩).1 "disk error" rfl,
   (C7_upload_ocr_failure_completed ⟨.ok "tiny"⟩).2 "tiny" rfl
     (by intro h; exact absurd h.2 (by decide))⟩

/-- C8 fails as stated: the upload pipeline commits the intermediate document
statuses `ocr_complete` and `ai_processing`, which are outside the claimed
`uploaded → processing → completed/failed` lifecycle. -/
theorem C8_counterexample :
    (upload_process ⟨.ok "some sufficiently long extracted text"⟩).2
      = [ProcessingStatus.uploaded, ProcessingStatus.processing,
         ProcessingStatus.ocr_complete, ProcessingStatus.ai_processing,
         ProcessingStatus.completed] ∧
    ProcessingStatus.ocr_complete
      ∉ [ProcessingStatus.uploaded, ProcessingStatus.processing,
         ProcessingStatus.completed, ProcessingStatus.failed] :=
  ⟨rfl, by decide⟩

/-- C8 amended: the upload pipeline always commits the document statuses
`uploaded → processing → ocr_complete → ai_processing → completed` (reaching
`failed` only through failures outside the modelled handlers, e.g. database
errors); a processing job moves `processing → completed` or
`processing → failed`, and every background-task failure is recorded — not
re-raised — as status `failed` with the error written to `error_message`. -/
theorem C8_status_lifecycle (env : UploadEnv) (wenv : WorkerEnv) :
    (upload_process env).2
      = [ProcessingStatus.uploaded, ProcessingStatus.processing,
         ProcessingStatus.ocr_complete, ProcessingStatus.ai_processing,
         ProcessingStatus.completed] ∧
    (wenv.jobFound = false → process_document_task wenv = none) ∧
    (∀ js trace, process_document_task wenv = some (js, trace) →
      (trace = [JobStatus.processing, JobStatus.completed] ∧
        js.status = JobStatus.completed ∧ js.error_message = none) ∨
      (trace = [JobStatus.processing, JobStatus.failed] ∧
        js.status = JobStatus.failed ∧ ∃ m, js.error_message = some m)) := by
  refine ⟨rfl, ?_, ?_⟩
  · intro hj
    simp only [process_document_task, hj, if_pos]
  · intro js trace h
    obtain ⟨jf, df, mf, ai⟩ := wenv
    cases jf with
    | false => exact absurd h (by simp [process_document_task])
    | true =>
      by_cases hdm : df = false ∨ mf = false
      · have hre : process_document_task ⟨true, df, mf, ai⟩
            = some (⟨JobStatus.failed, some "Document or AI model not found",
                     false, false⟩,
                    [JobStatus.processing, JobStatus.failed]) := by
          simp [process_document_task, hdm]
        rw [hre] at h
        obtain ⟨h1, h2⟩ := Prod.mk.injEq _ _ _ _ ▸ Option.some.inj h
        subst h1; subst h2
        exact Or.inr ⟨rfl, rfl, _, rfl⟩
      · rcases ai with e | ⟨success, errField⟩
        · have hre : process_document_task ⟨true, df, mf, .error e⟩
              = some (⟨JobStatus.failed, some e, true, false⟩,
                      [JobStatus.processing, JobStatus.failed]) := by
            simp [process_document_task, hdm]
          rw [hre] at h
          obtain ⟨h1, h2⟩ := Prod.mk.injEq _ _ _ _ ▸ Option.some.inj h
          subst h1; subst h2
          exact Or.inr ⟨rfl, rfl, _, rfl⟩
        · cases success with
          | true =>
            have hre : process_document_task ⟨true, df, mf, .ok (true, errField)⟩
                = some (⟨JobStatus.completed, none, true, true⟩,
                        [JobStatus.processing, JobStatus.completed]) := by
              simp [process_document_task, hdm]
            rw [hre] at h
            obtain ⟨h1, h2⟩ := Prod.mk.injEq _ _ _ _ ▸ Option.some.inj h
            subst h1; subst h2
            exact Or.inl ⟨rfl, rfl, rfl⟩
          | false =>
            have hre : process_document_task ⟨true, df, mf, .ok (false, errField)⟩
                = some (⟨JobStatus.failed, some (errField.getD "Unknown error"),
                         true, false⟩,
                        [JobStatus.processing, JobStatus.failed]) := by
              simp [process_document_task, hdm]
            rw [hre] at h
            obtain ⟨h1, h2⟩ := Prod.mk.injEq _ _ _ _ ▸ Option.some.inj h
            subst h1; subst h2
            exact Or.inr ⟨rfl, rfl, _, rfl⟩

/-- Witness for amended C8: a run whose AI call raises ends with the job
failed and the exception recorded, after the `processing → failed` trace. -/
theorem C8_status_lifecycle_witness :
    (upload_process ⟨.ok "hello"⟩).2
      = [ProcessingStatus.uploaded, ProcessingStatus.processing,
         ProcessingStatus.ocr_complete, ProcessingStatus.ai_processing,
         ProcessingStatus.completed] ∧
    (([JobStatus.processing, JobStatus.failed]
          = [JobStatus.processing, JobStatus.completed] ∧
        (⟨JobStatus.failed, some "ollama down", true, false⟩ : JobState).status
          = JobStatus.completed ∧
        (⟨JobStatus.failed, some "ollama down", true, false⟩ : JobState).error_message
          = none) ∨
      ([JobStatus.processing, JobStatus.failed]
          = [JobStatus.processing, JobStatus.failed] ∧
        (⟨JobStatus.failed, some "ollama down", true, false⟩ : JobState).status
          = JobStatus.failed ∧
        ∃ m, (⟨JobStatus.failed, some "ollama down", true, false⟩
            : JobState).error_message = some m)) :=
  ⟨(C8_status_lifecycle ⟨.ok "hello"⟩
      ⟨true, true, true, .error "ollama down"⟩).1,
   (C8_status_lifecycle ⟨.ok "hello"⟩
      ⟨true, true, true, .error "ollama down"⟩).2.2
     ⟨JobStatus.failed, some "ollama down", true, false⟩
     [JobStatus.processing, JobStatus.failed] rfl⟩
